import Mathlib

/-!
Verification of the soccerbot frame-reaction policy.

The repository contains two notebook variants of the same reactive control
policy for a two-wheeled robot:

* `final-soccerbot.ipynb` — 3-class collision schema
  (`blocked = y[0]`, `free = y[1]`, `hit = y[2]`), with mutable globals
  `detstatus` (target-tracking flag) and `lookcount` (scan counter);
* `src/unnamed/part_000` — 7-class collision schema
  (`blocked, blue, free, green, hit, red, yellow = y[0..6]`), stateless.

Probabilities, bounding-box coordinates and motor speeds are modelled as ℚ.
The externally observable behaviour of one `execute` invocation is modelled
as a list of events: motor commands, sleeps, camera `unobserve_all` /
`observe` calls, and the invocation of the object detector (`model(image)`).
The detector itself is external; its result (the detection list of the
current frame) is an input to `execute`.
-/

/-- A detection as produced by the external object detector:
`{label: int, bbox: (x1,y1,x2,y2) normalized}` (confidence is never read
by the policy, so it is omitted). -/
structure Detection where
  label : ℕ
  x1 : ℚ
  y1 : ℚ
  x2 : ℚ
  y2 : ℚ
deriving DecidableEq, Repr

/-- A motor command issued through the `Robot` actuator interface. -/
inductive Cmd where
  | forward (speed : ℚ)
  | leftTurn (speed : ℚ)
  | stop
  | setMotors (leftSpeed rightSpeed : ℚ)
deriving DecidableEq, Repr

/-- One externally observable step of an `execute` invocation, in program
order: a motor command, a `time.sleep`, detaching from / reattaching to the
camera frame source, or calling the object detector. -/
inductive Event where
  | cmd (c : Cmd)
  | sleep (seconds : ℚ)
  | unobserve
  | observe
  | detect
deriving DecidableEq, Repr

/-- The motor commands contained in an event trace, in order. -/
def motorCmds : List Event → List Cmd
  | [] => []
  | .cmd c :: evs => c :: motorCmds evs
  | .sleep _ :: evs => motorCmds evs
  | .unobserve :: evs => motorCmds evs
  | .observe :: evs => motorCmds evs
  | .detect :: evs => motorCmds evs

/-- Squared Euclidean length of a 2D vector (rational, executable). -/
def normSq (v : ℚ × ℚ) : ℚ :=
  v.1 ^ 2 + v.2 ^ 2

/-- The loop body of `closest_detection`, generic in the scoring function:
starts with `closest = None`, replaces the incumbent only on a strictly
smaller score.  The source compares the Euclidean norm
`np.sqrt(x^2 + y^2)`; `closestGo` compares the squared norm, which by
`normSq_lt_iff_sqrt_lt` below orders detections identically. -/
def closestGo (q : Detection → ℚ) : Option Detection → List Detection → Option Detection
  | best, [] => best
  | none, d :: ds => closestGo q (some d) ds
  | some b, d :: ds => closestGo q (if q d < q b then some d else some b) ds

namespace Part000

/-- The 7-class collision probability vector of `src/unnamed/part_000`:
`y[0..6] = blocked, blue, free, green, hit, red, yellow`. -/
structure Probs where
  blocked : ℚ
  blue : ℚ
  free : ℚ
  green : ℚ
  hit : ℚ
  red : ℚ
  yellow : ℚ
deriving DecidableEq, Repr

/-- `detection_center` of `part_000`: midpoint of the bbox minus 0.5 in
each coordinate. -/
def detection_center (d : Detection) : ℚ × ℚ :=
  ((d.x1 + d.x2) / 2 - 1/2, (d.y1 + d.y2) / 2 - 1/2)

/-- Squared-norm score of a detection's center offset. -/
def score (d : Detection) : ℚ :=
  normSq (detection_center d)

/-- `closest_detection` of `part_000`. -/
def closest_detection (dets : List Detection) : Option Detection :=
  closestGo score none dets

/-- Fixed steering gain `turn_g = 0.30` of `part_000`. -/
def turn_g : ℚ := 3/10

/-- Left wheel speed passed to `set_motors`: `speed_g + turn_g * center[0]`. -/
def left_speed (speed_g cx : ℚ) : ℚ :=
  speed_g + turn_g * cx

/-- Right wheel speed passed to `set_motors`: `speed_g - turn_g * center[0]`. -/
def right_speed (speed_g cx : ℚ) : ℚ :=
  speed_g - turn_g * cx

/-- The default path of `execute` in `part_000`: call the detector, filter
to label 37, take the closest detection; go forward if none, otherwise
detach, steer proportionally, stop, pause, reattach. -/
def detectionPhase (speed_g : ℚ) (dets : List Detection) : List Event :=
  let matching := dets.filter fun d => d.label = 37
  match closest_detection matching with
  | none => [.detect, .cmd (.forward (1/5))]
  | some det =>
      let cx := (detection_center det).1
      [.detect, .unobserve, .sleep (1/2),
       .cmd (.setMotors (left_speed speed_g cx) (right_speed speed_g cx)),
       .cmd .stop, .sleep 2, .observe]

/-- `execute` of `part_000` (7-class variant).  The `if prob_free > 0.4`
branch issues `robot.forward(0.2)` and, having no `return`, falls through
to the detection phase; the colour, blocked and hit branches `return`. -/
def execute (p : Probs) (speed_g : ℚ) (dets : List Detection) : List Event :=
  if p.free > 2/5 then
    .cmd (.forward (1/5)) :: detectionPhase speed_g dets
  else if p.red > 1/2 ∨ p.yellow > 1/2 ∨ p.green > 1/2 ∨ p.blue > 1/2 then
    [.cmd (.leftTurn (1/10))]
  else if p.blocked > 3/5 then
    [.cmd (.leftTurn (1/5))]
  else if p.hit > 1/2 then
    [.unobserve, .sleep 1, .cmd .stop, .sleep (1/2), .cmd (.forward (2/5)),
     .sleep (1/2), .cmd .stop, .sleep 2, .observe]
  else
    detectionPhase speed_g dets

end Part000

namespace Final

/-- The 3-class collision probability vector of `final-soccerbot.ipynb`:
`y[0..2] = blocked, free, hit`. -/
structure Probs where
  blocked : ℚ
  free : ℚ
  hit : ℚ
deriving DecidableEq, Repr

/-- The mutable policy state of `final-soccerbot.ipynb`: the global
target-tracking flag `detstatus` and scan counter `lookcount`. -/
structure State where
  detstatus : ℕ
  lookcount : ℕ
deriving DecidableEq, Repr

/-- `detection_center` of `final-soccerbot.ipynb`: midpoint of the bbox
minus 0.1 (not 0.5) in each coordinate. -/
def detection_center (d : Detection) : ℚ × ℚ :=
  ((d.x1 + d.x2) / 2 - 1/10, (d.y1 + d.y2) / 2 - 1/10)

/-- Squared-norm score of a detection's center offset. -/
def score (d : Detection) : ℚ :=
  normSq (detection_center d)

/-- `closest_detection` of `final-soccerbot.ipynb` (same loop as in
`part_000`, over this file's `detection_center`). -/
def closest_detection (dets : List Detection) : Option Detection :=
  closestGo score none dets

/-- Fixed steering gain `turn_g = 0.2` of `final-soccerbot.ipynb`. -/
def turn_g : ℚ := 1/5

/-- Fixed base speed `speed_g = 0.5` of `final-soccerbot.ipynb`. -/
def speed_g : ℚ := 1/2

/-- Left wheel speed passed to `set_motors`. -/
def left_speed (cx : ℚ) : ℚ :=
  speed_g + turn_g * cx

/-- Right wheel speed passed to `set_motors`. -/
def right_speed (cx : ℚ) : ℚ :=
  speed_g - turn_g * cx

/-- The default path of `execute` in `final-soccerbot.ipynb`: call the
detector, filter to labels 37/53/55, take the closest detection; if none,
clear `detstatus` and go forward; otherwise set `detstatus`, steer
proportionally, pause, stop, detach, pause, reattach. -/
def detectionPhase (dets : List Detection) (s : State) : List Event × State :=
  let matching := dets.filter fun d => d.label = 37 ∨ d.label = 53 ∨ d.label = 55
  match closest_detection matching with
  | none => ([.detect, .cmd (.forward (1/5))], { s with detstatus := 0 })
  | some det =>
      let cx := (detection_center det).1
      ([.detect,
        .cmd (.setMotors (left_speed cx) (right_speed cx)),
        .sleep 1, .cmd .stop, .unobserve, .sleep 2, .observe],
       { s with detstatus := 1 })

/-- `execute` of `final-soccerbot.ipynb` (3-class variant).  The scanning
branch (`prob_free > 0.4 and detstatus == 0`) and the blocked branch have
their `return` commented out and fall through to the detection phase; the
tracked-forward and hit branches `return`. -/
def execute (p : Probs) (dets : List Detection) (s : State) : List Event × State :=
  if p.free > 2/5 ∧ s.detstatus = 0 then
    if s.lookcount < 10 then
      let r := detectionPhase dets { s with lookcount := s.lookcount + 1 }
      (.cmd (.leftTurn (1/10)) :: r.1, r.2)
    else
      let r := detectionPhase dets { s with lookcount := 0 }
      (.cmd (.forward (1/5)) :: r.1, r.2)
  else if p.free > 2/5 ∧ s.detstatus = 1 then
    ([.cmd (.forward (1/5))], s)
  else if p.blocked > 1/2 then
    let r := detectionPhase dets s
    (.cmd (.leftTurn (1/5)) :: r.1, r.2)
  else if p.hit > 1/2 then
    ([.unobserve, .sleep 1, .cmd .stop, .sleep (1/2), .cmd (.forward (2/5)),
      .sleep (1/2), .cmd .stop, .sleep 2, .observe], s)
  else
    detectionPhase dets s

end Final

/-- `r` occurs in `l` at the first position attaining the minimum of `f`:
some index `i` holds `r`, no element of `l` scores below `f r`, and every
element strictly before index `i` scores strictly above `f r`. -/
def FirstMinBy {α : Type} [Preorder α] (f : Detection → α) (l : List Detection) (r : Detection) : Prop :=
  ∃ i : ℕ, l[i]? = some r ∧ (∀ e ∈ l, f r ≤ f e) ∧
    ∀ j e, j < i → l[j]? = some e → f r < f e

/-- `r` minimises `f` over `l` with first-occurrence tie-breaking, where
`f` need not be computable (used with the real Euclidean norm
`fun d => Real.sqrt ((c d).1 ^ 2 + (c d).2 ^ 2)` in theorem statements). -/
theorem firstMinBy_congr {α β : Type} [Preorder α] [Preorder β]
    (f : Detection → α) (g : Detection → β)
    (hle : ∀ a b, f a ≤ f b ↔ g a ≤ g b) (hlt : ∀ a b, f a < f b ↔ g a < g b)
    (l : List Detection) (r : Detection) :
    FirstMinBy f l r → FirstMinBy g l r := by
  rintro ⟨i, hi, hmin, hfirst⟩
  exact ⟨i, hi, fun e he => (hle r e).mp (hmin e he),
    fun j e hj hje => (hlt r e).mp (hfirst j e hj hje)⟩

/-- Comparing squared norms of rational 2D vectors is the same as comparing
the real Euclidean norms `np.sqrt(x^2 + y^2)` computed by the notebooks'
`norm`. -/
theorem normSq_lt_iff_sqrt_lt (u v : ℚ × ℚ) :
    normSq u < normSq v ↔
      Real.sqrt ((u.1 : ℝ) ^ 2 + (u.2 : ℝ) ^ 2)
        < Real.sqrt ((v.1 : ℝ) ^ 2 + (v.2 : ℝ) ^ 2) := by
  rw [Real.sqrt_lt_sqrt_iff (by positivity)]
  unfold normSq
  constructor <;> intro h <;> exact_mod_cast h

/-- The non-strict counterpart of `normSq_lt_iff_sqrt_lt`. -/
theorem normSq_le_iff_sqrt_le (u v : ℚ × ℚ) :
    normSq u ≤ normSq v ↔
      Real.sqrt ((u.1 : ℝ) ^ 2 + (u.2 : ℝ) ^ 2)
        ≤ Real.sqrt ((v.1 : ℝ) ^ 2 + (v.2 : ℝ) ^ 2) := by
  rw [Real.sqrt_le_sqrt_iff (by positivity)]
  unfold normSq
  constructor <;> intro h <;> exact_mod_cast h

/-- Correctness of the `closest_detection` loop, generalised over the
incumbent: starting from incumbent `b`, the loop returns the element of
`b :: l` at the first position attaining the minimal score. -/
theorem closestGo_spec (q : Detection → ℚ) (l : List Detection) :
    ∀ b : Detection,
      ∃ r, closestGo q (some b) l = some r ∧ FirstMinBy q (b :: l) r := by
  induction l with
  | nil =>
      intro b
      refine ⟨b, rfl, 0, rfl, ?_, ?_⟩
      · intro e he
        rw [List.mem_singleton.mp he]
      · intro j e hj
        omega
  | cons d ds ih =>
      intro b
      by_cases h : q d < q b
      · obtain ⟨r, hr, i, hi, hmin, hfirst⟩ := ih d
        have hrd : q r ≤ q d := hmin d (List.mem_cons_self d ds)
        refine ⟨r, ?_, i + 1, ?_, ?_, ?_⟩
        · rw [show closestGo q (some b) (d :: ds)
            = closestGo q (if q d < q b then some d else some b) ds from rfl,
            if_pos h]
          exact hr
        · simpa using hi
        · intro e he
          rcases List.mem_cons.mp he with rfl | he'
          · exact le_of_lt (lt_of_le_of_lt hrd h)
          · exact hmin e he'
        · intro j e hj hje
          match j with
          | 0 =>
              obtain rfl : b = e := by simpa using hje
              exact lt_of_le_of_lt hrd h
          | j' + 1 =>
              exact hfirst j' e (by omega) (by simpa using hje)
      · obtain ⟨r, hr, i, hi, hmin, hfirst⟩ := ih b
        have hbd : q b ≤ q d := le_of_not_lt h
        have hrun : closestGo q (some b) (d :: ds) = closestGo q (some b) ds := by
          rw [show closestGo q (some b) (d :: ds)
            = closestGo q (if q d < q b then some d else some b) ds from rfl,
            if_neg h]
        match i with
        | 0 =>
            obtain rfl : b = r := by simpa using hi
            refine ⟨b, hrun.trans hr, 0, rfl, ?_, ?_⟩
            · intro e he
              rcases List.mem_cons.mp he with rfl | he'
              · exact le_refl _
              rcases List.mem_cons.mp he' with rfl | he''
              · exact hbd
              · exact hmin e (List.mem_cons_of_mem _ he'')
            · intro j e hj
              omega
        | i' + 1 =>
            have hrb : q r < q b := hfirst 0 b (by omega) (by simp)
            refine ⟨r, hrun.trans hr, i' + 2, by simpa using hi, ?_, ?_⟩
            · intro e he
              rcases List.mem_cons.mp he with rfl | he'
              · exact le_of_lt hrb
              rcases List.mem_cons.mp he' with rfl | he''
              · exact le_of_lt (lt_of_lt_of_le hrb hbd)
              · exact hmin e (List.mem_cons_of_mem _ he'')
            · intro j e hj hje
              match j with
              | 0 =>
                  obtain rfl : b = e := by simpa using hje
                  exact hrb
              | 1 =>
                  obtain rfl : d = e := by simpa using hje
                  exact lt_of_lt_of_le hrb hbd
              | j' + 2 =>
                  exact hfirst (j' + 1) e (by omega) (by simpa using hje)

/-- Correctness of `closest_detection` for any variant's score function:
on a non-empty list it returns the element at the first position attaining
the minimal score. -/
theorem closestGo_none_spec (q : Detection → ℚ) (l : List Detection)
    (hl : l ≠ []) :
    ∃ r, closestGo q none l = some r ∧ FirstMinBy q l r := by
  match l, hl with
  | d :: ds, _ =>
      obtain ⟨r, hr, hspec⟩ := closestGo_spec q ds d
      exact ⟨r, hr, hspec⟩

/-- The default detection path of `part_000` issues either a single
`forward(0.2)` or a `set_motors` followed by a `stop`. -/
theorem part000_detectionPhase_cmds (g : ℚ) (dets : List Detection) :
    motorCmds (Part000.detectionPhase g dets) = [.forward (1/5)] ∨
      ∃ l r, motorCmds (Part000.detectionPhase g dets)
        = [.setMotors l r, .stop] := by
  simp only [Part000.detectionPhase]
  rcases h : Part000.closest_detection (dets.filter fun d => d.label = 37) with _ | det
  · left
    simp [motorCmds]
  · right
    exact ⟨Part000.left_speed g (Part000.detection_center det).1,
      Part000.right_speed g (Part000.detection_center det).1, by simp [motorCmds]⟩

/-- The default detection path of `final-soccerbot.ipynb` issues either a
single `forward(0.2)` or a `set_motors` followed by a `stop`, and never
touches the scan counter. -/
theorem final_detectionPhase_cmds (dets : List Detection) (s : Final.State) :
    (motorCmds (Final.detectionPhase dets s).1 = [.forward (1/5)] ∨
      ∃ l r, motorCmds (Final.detectionPhase dets s).1
        = [.setMotors l r, .stop]) ∧
      (Final.detectionPhase dets s).2.lookcount = s.lookcount := by
  simp only [Final.detectionPhase]
  rcases h : Final.closest_detection
      (dets.filter fun d => d.label = 37 ∨ d.label = 53 ∨ d.label = 55) with _ | det
  · exact ⟨Or.inl (by simp [motorCmds]), rfl⟩
  · exact ⟨Or.inr ⟨Final.left_speed (Final.detection_center det).1,
      Final.right_speed (Final.detection_center det).1, by simp [motorCmds]⟩, rfl⟩

/-- C9: `closest_detection` applied to the empty detection list returns
`None` (the "no target" result) in both notebook variants; being a total
Lean function, it cannot raise. -/
theorem c9_empty_none :
    Part000.closest_detection [] = none ∧ Final.closest_detection [] = none :=
  ⟨rfl, rfl⟩

/-- C2 counterexample: in `final-soccerbot.ipynb`, `detection_center`
subtracts 0.1, not 0.5; on the bbox (0,0,1,1) it returns (0.4, 0.4),
whereas the claimed formula `midpoint − 0.5` gives (0, 0). -/
theorem c2_counterexample :
    Final.detection_center ⟨37, 0, 0, 1, 1⟩ = (2/5, 2/5) ∧
      ¬ Final.detection_center ⟨37, 0, 0, 1, 1⟩
          = (((0:ℚ) + 1) / 2 - 1/2, ((0:ℚ) + 1) / 2 - 1/2) := by
  constructor <;> norm_num [Final.detection_center, Prod.ext_iff]

/-- C2 (amended): `detection_center` returns the bbox midpoint shifted by a
constant in each coordinate: by 0.5 (the image center) in `part_000`, but
by 0.1 in `final-soccerbot.ipynb`. -/
theorem c2_center_offsets (d : Detection) :
    Part000.detection_center d
        = ((d.x1 + d.x2) / 2 - 1/2, (d.y1 + d.y2) / 2 - 1/2) ∧
      Final.detection_center d
        = ((d.x1 + d.x2) / 2 - 1/10, (d.y1 + d.y2) / 2 - 1/10) :=
  ⟨rfl, rfl⟩

/-- C1 counterexample: with `free = 0.45 > 0.4` and no detections, the
7-class `execute` issues `forward(0.2)` in the free-space branch and,
because that branch has no `return`, falls through to the detection path
and issues a second `forward(0.2)` — two motor commands in one frame. -/
theorem c1_counterexample :
    motorCmds (Part000.execute ⟨0, 0, 9/20, 0, 11/20, 0, 0⟩ (2/5) [])
        = [.forward (1/5), .forward (1/5)] ∧
      ¬ (motorCmds (Part000.execute ⟨0, 0, 9/20, 0, 11/20, 0, 0⟩ (2/5) [])).length ≤ 1 := by
  constructor <;>
    norm_num [Part000.execute, Part000.detectionPhase, Part000.closest_detection,
      closestGo, motorCmds]

/-- C1 (amended): a single `execute` invocation issues at most three motor
commands, not at most one: the free-space branch (and the blocked branch of
the 3-class variant) falls through to the detection path, and the contact
maneuver itself issues stop–forward–stop. -/
theorem c1_at_most_three_commands :
    (∀ (p : Part000.Probs) (g : ℚ) (dets : List Detection),
        (motorCmds (Part000.execute p g dets)).length ≤ 3) ∧
      ∀ (p : Final.Probs) (dets : List Detection) (s : Final.State),
        (motorCmds (Final.execute p dets s).1).length ≤ 3 := by
  constructor
  · intro p g dets
    have hd := part000_detectionPhase_cmds g dets
    unfold Part000.execute
    split_ifs with h1 h2 h3 h4
    · rcases hd with hd | ⟨l, r, hd⟩ <;> simp [motorCmds, hd]
    · simp [motorCmds]
    · simp [motorCmds]
    · simp [motorCmds]
    · rcases hd with hd | ⟨l, r, hd⟩ <;> simp [hd]
  · intro p dets s
    unfold Final.execute
    split_ifs with h1 h2 h3 h4 h5
    · rcases (final_detectionPhase_cmds dets { s with lookcount := s.lookcount + 1 }).1
        with hd | ⟨l, r, hd⟩ <;> simp [motorCmds, hd]
    · rcases (final_detectionPhase_cmds dets { s with lookcount := 0 }).1
        with hd | ⟨l, r, hd⟩ <;> simp [motorCmds, hd]
    · simp [motorCmds]
    · rcases (final_detectionPhase_cmds dets s).1
        with hd | ⟨l, r, hd⟩ <;> simp [motorCmds, hd]
    · simp [motorCmds]
    · rcases (final_detectionPhase_cmds dets s).1
        with hd | ⟨l, r, hd⟩ <;> simp [hd]

/-- C6: the differential-drive command is linear in the target's horizontal
center offset with fixed positive gain; at offset 0 both wheels get the
base speed, and increasing the offset strictly increases the left wheel
speed and strictly decreases the right wheel speed — in both variants. -/
theorem c6_steering_linear :
    (0 < Final.turn_g ∧ Final.left_speed 0 = Final.speed_g ∧
      Final.right_speed 0 = Final.speed_g ∧
      ∀ c1 c2 : ℚ, c1 < c2 →
        Final.left_speed c1 < Final.left_speed c2 ∧
        Final.right_speed c2 < Final.right_speed c1) ∧
    (0 < Part000.turn_g ∧
      (∀ s : ℚ, Part000.left_speed s 0 = s ∧ Part000.right_speed s 0 = s) ∧
      ∀ s c1 c2 : ℚ, c1 < c2 →
        Part000.left_speed s c1 < Part000.left_speed s c2 ∧
        Part000.right_speed s c2 < Part000.right_speed s c1) := by
  refine ⟨⟨by norm_num [Final.turn_g],
      by norm_num [Final.left_speed, Final.turn_g],
      by norm_num [Final.right_speed, Final.turn_g], ?_⟩,
    by norm_num [Part000.turn_g],
    fun s => ⟨by norm_num [Part000.left_speed, Part000.turn_g],
      by norm_num [Part000.right_speed, Part000.turn_g]⟩, ?_⟩
  · intro c1 c2 h
    constructor <;>
      · simp only [Final.left_speed, Final.right_speed, Final.turn_g, Final.speed_g]
        linarith
  · intro s c1 c2 h
    constructor <;>
      · simp only [Part000.left_speed, Part000.right_speed, Part000.turn_g]
        linarith

/-- C6 witness: concrete instantiation of the monotonicity parts at
offsets 0 < 1. -/
theorem c6_witness :
    Final.left_speed 0 < Final.left_speed 1 ∧
      Final.right_speed 1 < Final.right_speed 0 ∧
      Part000.left_speed (1/2) 0 < Part000.left_speed (1/2) 1 ∧
      Part000.right_speed (1/2) 1 < Part000.right_speed (1/2) 0 :=
  ⟨(c6_steering_linear.1.2.2.2 0 1 (by norm_num)).1,
   (c6_steering_linear.1.2.2.2 0 1 (by norm_num)).2,
   (c6_steering_linear.2.2.2 (1/2) 0 1 (by norm_num)).1,
   (c6_steering_linear.2.2.2 (1/2) 0 1 (by norm_num)).2⟩

/-- C10: in the 7-class variant, when the free-space probability is at most
0.4 and any colour-obstacle probability exceeds 0.5, the whole invocation
is a single `left(0.1)` turn: no detector call, no blocked or contact
action (those branches sit strictly after the colour branch). -/
theorem c10_color_branch (p : Part000.Probs) (g : ℚ) (dets : List Detection)
    (hfree : ¬ p.free > 2/5)
    (hcol : p.red > 1/2 ∨ p.yellow > 1/2 ∨ p.green > 1/2 ∨ p.blue > 1/2) :
    Part000.execute p g dets = [.cmd (.leftTurn (1/10))] ∧
      motorCmds (Part000.execute p g dets) = [.leftTurn (1/10)] ∧
      Event.detect ∉ Part000.execute p g dets := by
  have h : Part000.execute p g dets = [.cmd (.leftTurn (1/10))] := by
    unfold Part000.execute
    rw [if_neg hfree, if_pos hcol]
  exact ⟨h, by rw [h]; rfl, by rw [h]; decide⟩

/-- C10 witness: a frame with `free = 0`, `red = 0.6` takes the colour
branch and emits exactly one left turn. -/
theorem c10_witness :
    ¬ (Part000.Probs.mk 0 0 0 0 0 (3/5) (2/5)).free > 2/5 ∧
      (Part000.Probs.mk 0 0 0 0 0 (3/5) (2/5)).red > 1/2 ∧
      Part000.execute (Part000.Probs.mk 0 0 0 0 0 (3/5) (2/5)) (2/5) []
        = [.cmd (.leftTurn (1/10))] :=
  ⟨by norm_num, by norm_num,
   (c10_color_branch _ _ _ (by norm_num) (Or.inl (by norm_num))).1⟩

/-- C3: when the free-space probability exceeds 0.4, the free-space branch
is selected and the blocked action (`left(0.2)`) and the contact pulse
(`forward(0.4)`) are never issued, whatever the other probabilities are.
In the 7-class variant the first event is the free branch's
`forward(0.2)`; in the 3-class variant the first command is the scan turn
or forward nudge of the free branch (for the tracked flag's two values). -/
theorem c3_free_branch_preempts :
    (∀ (p : Part000.Probs) (g : ℚ) (dets : List Detection), p.free > 2/5 →
        (Part000.execute p g dets).head? = some (.cmd (.forward (1/5))) ∧
        Cmd.leftTurn (1/10) ∉ motorCmds (Part000.execute p g dets) ∧
        Cmd.leftTurn (1/5) ∉ motorCmds (Part000.execute p g dets) ∧
        Cmd.forward (2/5) ∉ motorCmds (Part000.execute p g dets)) ∧
      ∀ (p : Final.Probs) (dets : List Detection) (s : Final.State),
        s.detstatus = 0 ∨ s.detstatus = 1 → p.free > 2/5 →
        ((motorCmds (Final.execute p dets s).1).head? = some (.leftTurn (1/10)) ∨
          (motorCmds (Final.execute p dets s).1).head? = some (.forward (1/5))) ∧
        Cmd.leftTurn (1/5) ∉ motorCmds (Final.execute p dets s).1 ∧
        Cmd.forward (2/5) ∉ motorCmds (Final.execute p dets s).1 := by
  constructor
  · intro p g dets hfree
    unfold Part000.execute
    rw [if_pos hfree]
    refine ⟨rfl, ?_⟩
    rcases part000_detectionPhase_cmds g dets with hd | ⟨l, r, hd⟩ <;>
        norm_num [motorCmds, hd] <;> simp
  · intro p dets s hds hfree
    unfold Final.execute
    rcases hds with h0 | h1
    · rw [if_pos ⟨hfree, h0⟩]
      by_cases hl : s.lookcount < 10
      · rw [if_pos hl]
        rcases (final_detectionPhase_cmds dets
            { s with lookcount := s.lookcount + 1 }).1 with hd | ⟨l, r, hd⟩ <;>
            norm_num [motorCmds, hd] <;> simp
      · rw [if_neg hl]
        rcases (final_detectionPhase_cmds dets
            { s with lookcount := 0 }).1 with hd | ⟨l, r, hd⟩ <;>
            norm_num [motorCmds, hd] <;> simp
    · have hne : ¬ (p.free > 2/5 ∧ s.detstatus = 0) := by
        rintro ⟨-, h⟩
        rw [h1] at h
        exact one_ne_zero h
      rw [if_neg hne, if_pos ⟨hfree, h1⟩]
      norm_num [motorCmds]
      simp

/-- C3 witness: free = 0.45 and blocked = 0.55 both exceed their
thresholds; the free branch preempts in both variants. -/
theorem c3_witness :
    (9:ℚ)/20 > 2/5 ∧
      Cmd.leftTurn (1/5)
          ∉ motorCmds (Part000.execute ⟨11/20, 0, 9/20, 0, 0, 0, 0⟩ (2/5) []) ∧
      Cmd.leftTurn (1/5)
          ∉ motorCmds (Final.execute ⟨11/20, 9/20, 0⟩ [] ⟨1, 0⟩).1 :=
  ⟨by norm_num,
   (c3_free_branch_preempts.1 ⟨11/20, 0, 9/20, 0, 0, 0, 0⟩ (2/5) []
      (by norm_num)).2.2.1,
   (c3_free_branch_preempts.2 ⟨11/20, 9/20, 0⟩ [] ⟨1, 0⟩ (Or.inr rfl)
      (by norm_num)).2.1⟩

/-- C5 counterexample: at the scan limit (`lookcount = 10`) with the
spec's probabilities and no detections, the invocation emits two forward
nudges (the branch's own and the fall-through detection path's), not a
single one. -/
theorem c5_counterexample :
    motorCmds (Final.execute ⟨1/20, 17/20, 1/50⟩ [] ⟨0, 10⟩).1
      = [.forward (1/5), .forward (1/5)] := by
  norm_num [Final.execute, Final.detectionPhase, Final.closest_detection,
    closestGo, motorCmds]

/-- C5 (amended): with free space and no tracked target, if the scan
counter is below 10 the first command of the frame is the scanning turn
`left(0.1)` and the counter increments by exactly one; once the counter
has reached 10 the first command is the forward nudge `forward(0.2)` and
the counter resets to 0.  The branch falls through, so the detection path
may append further commands in the same frame. -/
theorem c5_scan_counter (p : Final.Probs) (dets : List Detection)
    (s : Final.State) (hfree : p.free > 2/5) (h0 : s.detstatus = 0) :
    (s.lookcount < 10 →
      (motorCmds (Final.execute p dets s).1).head? = some (.leftTurn (1/10)) ∧
      (Final.execute p dets s).2.lookcount = s.lookcount + 1) ∧
    (¬ s.lookcount < 10 →
      (motorCmds (Final.execute p dets s).1).head? = some (.forward (1/5)) ∧
      (Final.execute p dets s).2.lookcount = 0) := by
  unfold Final.execute
  rw [if_pos ⟨hfree, h0⟩]
  constructor
  · intro hl
    rw [if_pos hl]
    exact ⟨rfl,
      (final_detectionPhase_cmds dets { s with lookcount := s.lookcount + 1 }).2⟩
  · intro hl
    rw [if_neg hl]
    exact ⟨rfl, (final_detectionPhase_cmds dets { s with lookcount := 0 }).2⟩

/-- C5 witness: the spec's scenario — probabilities (0.05, 0.85, 0.02),
counter 3 — yields a scan turn as first command and counter 4. -/
theorem c5_witness :
    (17:ℚ)/20 > 2/5 ∧ (Final.State.mk 0 3).lookcount < 10 ∧
      (motorCmds (Final.execute ⟨1/20, 17/20, 1/50⟩ [] ⟨0, 3⟩).1).head?
          = some (.leftTurn (1/10)) ∧
      (Final.execute ⟨1/20, 17/20, 1/50⟩ [] ⟨0, 3⟩).2.lookcount
          = (Final.State.mk 0 3).lookcount + 1 :=
  ⟨by norm_num, by norm_num,
   (c5_scan_counter ⟨1/20, 17/20, 1/50⟩ [] ⟨0, 3⟩ (by norm_num) rfl).1
     (by norm_num)⟩

/-- C7 counterexample: a frame with `hit = 0.55 > 0.5` but `free = 0.45 >
0.4` and a tracked target takes the free branch: the policy acts
(`forward(0.2)`) without ever detaching, and no stop/escape maneuver
runs — "whenever the contact probability exceeds 0.5" is too strong. -/
theorem c7_counterexample :
    (Final.Probs.mk 0 (9/20) (11/20)).hit > 1/2 ∧
      Event.unobserve ∉ (Final.execute ⟨0, 9/20, 11/20⟩ [] ⟨1, 0⟩).1 ∧
      Cmd.stop ∉ motorCmds (Final.execute ⟨0, 9/20, 11/20⟩ [] ⟨1, 0⟩).1 := by
  refine ⟨by norm_num, ?_, ?_⟩ <;>
    · norm_num [Final.execute, Final.detectionPhase, Final.closest_detection,
        closestGo, motorCmds]
      decide

/-- C7 (amended): when the contact probability exceeds 0.5 *and no earlier
branch fires* (free ≤ 0.4; blocked ≤ 0.5 in the 3-class variant; no colour
probability above 0.5 and blocked ≤ 0.6 in the 7-class variant), the whole
invocation is exactly: detach, pause, stop, pause, forward pulse, pause,
stop, longer pause, reattach — the trace starts with the detach and ends
with the reattach, and the policy state is untouched. -/
theorem c7_hit_branch_detach :
    (∀ (p : Final.Probs) (dets : List Detection) (s : Final.State),
        ¬ p.free > 2/5 → ¬ p.blocked > 1/2 → p.hit > 1/2 →
        Final.execute p dets s
          = ([.unobserve, .sleep 1, .cmd .stop, .sleep (1/2),
              .cmd (.forward (2/5)), .sleep (1/2), .cmd .stop, .sleep 2,
              .observe], s)) ∧
      ∀ (p : Part000.Probs) (g : ℚ) (dets : List Detection),
        ¬ p.free > 2/5 →
        ¬ (p.red > 1/2 ∨ p.yellow > 1/2 ∨ p.green > 1/2 ∨ p.blue > 1/2) →
        ¬ p.blocked > 3/5 → p.hit > 1/2 →
        Part000.execute p g dets
          = [.unobserve, .sleep 1, .cmd .stop, .sleep (1/2),
             .cmd (.forward (2/5)), .sleep (1/2), .cmd .stop, .sleep 2,
             .observe] := by
  constructor
  · intro p dets s hfree hblocked hhit
    unfold Final.execute
    rw [if_neg (fun h => hfree h.1), if_neg (fun h => hfree h.1),
      if_neg hblocked, if_pos hhit]
  · intro p g dets hfree hcol hblocked hhit
    unfold Part000.execute
    rw [if_neg hfree, if_neg hcol, if_neg hblocked, if_pos hhit]

/-- C7 witness: `free = 0.2`, `blocked = 0`, `hit = 0.55` in the 3-class
variant yields exactly the detach–maneuver–reattach trace. -/
theorem c7_witness :
    Final.execute ⟨0, 1/5, 11/20⟩ [] ⟨0, 0⟩
      = ([.unobserve, .sleep 1, .cmd .stop, .sleep (1/2),
          .cmd (.forward (2/5)), .sleep (1/2), .cmd .stop, .sleep 2,
          .observe], ⟨0, 0⟩) :=
  c7_hit_branch_detach.1 ⟨0, 1/5, 11/20⟩ [] ⟨0, 0⟩
    (by norm_num) (by norm_num) (by norm_num)

/-- C8 counterexample: in `part_000` the base speed comes from a slider
with range [0,1]; at base speed 1 and a bounding box at the right edge
(bbox (1,1,1,1), center offset 0.5) the left wheel command passed to
`set_motors` is 1.15, outside the actuator's accepted range [-1,1]. -/
theorem c8_counterexample :
    Event.cmd (.setMotors (23/20) (17/20)) ∈
        Part000.execute ⟨1/5, 0, 1/5, 0, 1/5, 1/5, 1/5⟩ 1 [⟨37, 1, 1, 1, 1⟩] ∧
      ¬ ((23:ℚ)/20 ≤ 1) := by
  constructor
  · norm_num [Part000.execute, Part000.detectionPhase,
      Part000.closest_detection, closestGo, motorCmds, Part000.left_speed,
      Part000.right_speed, Part000.detection_center, Part000.turn_g]
  · norm_num

/-- C8 (amended): for bbox coordinates in [0,1] the wheel speeds stay in
[-1,1] in the 3-class variant (fixed base speed 0.5, gain 0.2, offset in
[-0.1, 0.9]); in `part_000` (gain 0.3, offset in [-0.5, 0.5]) they stay in
[-1,1] provided the base speed is at most 0.85 — at base speed 1 the bound
fails (see the counterexample). -/
theorem c8_speed_bounds (d : Detection) (s : ℚ)
    (hx1 : 0 ≤ d.x1) (hx1' : d.x1 ≤ 1) (hx2 : 0 ≤ d.x2) (hx2' : d.x2 ≤ 1)
    (hs0 : 0 ≤ s) (hs : s ≤ 17/20) :
    (-1 ≤ Final.left_speed (Final.detection_center d).1 ∧
      Final.left_speed (Final.detection_center d).1 ≤ 1 ∧
      -1 ≤ Final.right_speed (Final.detection_center d).1 ∧
      Final.right_speed (Final.detection_center d).1 ≤ 1) ∧
    (-1 ≤ Part000.left_speed s (Part000.detection_center d).1 ∧
      Part000.left_speed s (Part000.detection_center d).1 ≤ 1 ∧
      -1 ≤ Part000.right_speed s (Part000.detection_center d).1 ∧
      Part000.right_speed s (Part000.detection_center d).1 ≤ 1) := by
  simp only [Final.left_speed, Final.right_speed, Final.turn_g, Final.speed_g,
    Part000.left_speed, Part000.right_speed, Part000.turn_g,
    Final.detection_center, Part000.detection_center]
  refine ⟨⟨?_, ?_, ?_, ?_⟩, ?_, ?_, ?_, ?_⟩ <;> linarith

/-- C8 witness: bbox (0.4, 0.4, 0.4, 0.4) and base speed 0.5 satisfy the
bounds in both variants. -/
theorem c8_witness :
    (0:ℚ) ≤ 2/5 ∧ (2:ℚ)/5 ≤ 1 ∧ (0:ℚ) ≤ 1/2 ∧ (1:ℚ)/2 ≤ 17/20 ∧
      (-1 ≤ Part000.left_speed (1/2)
          (Part000.detection_center ⟨37, 2/5, 2/5, 2/5, 2/5⟩).1 ∧
        Part000.left_speed (1/2)
          (Part000.detection_center ⟨37, 2/5, 2/5, 2/5, 2/5⟩).1 ≤ 1) :=
  ⟨by norm_num, by norm_num, by norm_num, by norm_num,
   (c8_speed_bounds ⟨37, 2/5, 2/5, 2/5, 2/5⟩ (1/2) (by norm_num) (by norm_num)
      (by norm_num) (by norm_num) (by norm_num) (by norm_num)).2.1,
   (c8_speed_bounds ⟨37, 2/5, 2/5, 2/5, 2/5⟩ (1/2) (by norm_num) (by norm_num)
      (by norm_num) (by norm_num) (by norm_num) (by norm_num)).2.2.1⟩

/-- C4: on a non-empty list, `closest_detection` (in both variants)
returns the element whose center offset has minimum Euclidean norm, and
among ties the one at the earliest position in the input list: every
earlier element has strictly larger norm. -/
theorem c4_closest_detection_first_min (l : List Detection) (hl : l ≠ []) :
    (∃ d, Part000.closest_detection l = some d ∧
        FirstMinBy (fun e =>
          Real.sqrt (((Part000.detection_center e).1 : ℝ) ^ 2
            + ((Part000.detection_center e).2 : ℝ) ^ 2)) l d) ∧
      ∃ d, Final.closest_detection l = some d ∧
        FirstMinBy (fun e =>
          Real.sqrt (((Final.detection_center e).1 : ℝ) ^ 2
            + ((Final.detection_center e).2 : ℝ) ^ 2)) l d := by
  constructor
  · obtain ⟨r, hr, hmin⟩ := closestGo_none_spec Part000.score l hl
    exact ⟨r, hr, firstMinBy_congr _ _
      (fun a b => normSq_le_iff_sqrt_le (Part000.detection_center a)
        (Part000.detection_center b))
      (fun a b => normSq_lt_iff_sqrt_lt (Part000.detection_center a)
        (Part000.detection_center b)) l r hmin⟩
  · obtain ⟨r, hr, hmin⟩ := closestGo_none_spec Final.score l hl
    exact ⟨r, hr, firstMinBy_congr _ _
      (fun a b => normSq_le_iff_sqrt_le (Final.detection_center a)
        (Final.detection_center b))
      (fun a b => normSq_lt_iff_sqrt_lt (Final.detection_center a)
        (Final.detection_center b)) l r hmin⟩

/-- C4 witness: the spec's scenario list — an off-center and a centered
label-37 detection — is non-empty, and `closest_detection` returns its
first-minimal element. -/
theorem c4_witness :
    ([⟨37, 1/10, 1/10, 3/10, 3/10⟩, ⟨37, 9/20, 9/20, 11/20, 11/20⟩]
        : List Detection) ≠ [] ∧
      ∃ d, Part000.closest_detection
          [⟨37, 1/10, 1/10, 3/10, 3/10⟩, ⟨37, 9/20, 9/20, 11/20, 11/20⟩]
            = some d ∧
        FirstMinBy (fun e =>
          Real.sqrt (((Part000.detection_center e).1 : ℝ) ^ 2
            + ((Part000.detection_center e).2 : ℝ) ^ 2))
          [⟨37, 1/10, 1/10, 3/10, 3/10⟩, ⟨37, 9/20, 9/20, 11/20, 11/20⟩] d :=
  ⟨by simp,
   (c4_closest_detection_first_min
      [⟨37, 1/10, 1/10, 3/10, 3/10⟩, ⟨37, 9/20, 9/20, 11/20, 11/20⟩]
      (by simp)).1⟩
